import Mathlib

/-!
Shallow embedding of `grizli/stack.py` (classes `StackFitter` and
`StackedSpectrum`) and proofs about it.

Modelling conventions:
* Arithmetic is over an arbitrary `LinearOrderedField α` (instantiated at `ℚ`
  for concrete evaluation and at `ℝ` where the code's transcendental
  primitives `np.exp` / `np.sqrt` / `np.log` matter).  Floating point is
  modelled as exact field arithmetic.
* `np.isfinite` tests on raw input arrays are modelled by Boolean flags
  carried with the data (a field element cannot be NaN/inf).
* IEEE division: `1/0 = inf` followed by `1/(inf + x) = 0` is modelled
  explicitly in `adjIvar` by the `ivar0 = 0` case split.  Elsewhere Lean's
  `x / 0 = 0` convention stands in for the code's NaN/inf; every theorem
  whose meaning depends on a zero denominator makes the denominator
  hypothesis explicit.
* External numerical services (scipy's nnls / np.linalg.lstsq solver, the
  covariance-matrix inverse of `np.matrix(..).I`, `np.sqrt`, `np.exp`, and
  the flux-conserving resampler `interp_conserve_c`, which the spec lists as
  an external collaborator) are passed in as function parameters; the
  surrounding array plumbing is modelled concretely.
* Flattened 2D arrays of shape `(rows, cols)` are functions `ℕ → α` with
  pixel `p = r*cols + c`, exactly numpy's C-order flatten.
-/

namespace GrizliStack

variable {α : Type} [LinearOrderedField α]

/-- Maximum of `f 0, …, f (n-1)`; models `ndarray.max()` (array assumed
nonempty, as numpy raises otherwise). -/
def arrMax (f : ℕ → α) (n : ℕ) : α :=
  ((List.range n).map f).foldl max (f 0)

/-- Minimum of `f 0, …, f (n-1)`; models `ndarray.min()`. -/
def arrMin (f : ℕ → α) (n : ℕ) : α :=
  ((List.range n).map f).foldl min (f 0)

/-- Adjusted inverse variance of `StackedSpectrum.__init__` (line 636):
`ivarf = 1/(1/ivarf0 + (sys_err*scif)**2)`.  For `ivarf0 = 0` IEEE gives
`1/0 = inf` and then `1/(inf + t) = 0`, hence the explicit case split. -/
def adjIvar (sys_err iv0 sc : α) : α :=
  if iv0 = 0 then 0 else 1 / (1 / iv0 + (sys_err * sc) ^ 2)

/-- State of one `StackedSpectrum` as read from the stack FITS file, plus
the construction parameters.  `kernel0` is the raw `KERNEL` extension data
(shape `sh0 × sh0`), `sens` is the already-resampled sensitivity curve
(`interp_conserve_c` of the configuration's sensitivity samples, times the
median wavelength spacing times 1e-17 — an external service, so its output
is data here), and `sci_finite` / `ivar_finite` are the `np.isfinite` flags
of the raw science and (adjusted) inverse-variance arrays. -/
structure StackedSpectrum (α : Type) where
  sh0 : ℕ
  sh1 : ℕ
  crpix1 : α
  crval1 : α
  cd1_1 : α
  kernel0 : ℕ → ℕ → α
  scif : ℕ → α
  ivarf0 : ℕ → α
  sci_finite : ℕ → Bool
  ivar_finite : ℕ → Bool
  sys_err : α
  mask_min : α
  fcontam : α
  is_flambda : Bool
  sens : ℕ → α
  has_contam : Bool
  contamf : ℕ → α

namespace StackedSpectrum

variable (E : StackedSpectrum α)

/-- Number of pixels of the flattened 2D arrays (`self.size = self.sci.size`). -/
def size : ℕ := E.sh0 * E.sh1

/-- Wavelength array from the WCS keywords
(`get_wavelength_from_header`): `w = (arange(NAXIS1)+1-CRPIX1)*CD1_1 + CRVAL1`. -/
def wave (c : ℕ) : α := ((c : α) + 1 - E.crpix1) * E.cd1_1 + E.crval1

/-- Total of the raw kernel, used for normalization (`self.kernel /= self.kernel.sum()`). -/
def kernelSum : α :=
  ∑ r ∈ Finset.range E.sh0, ∑ k ∈ Finset.range E.sh0, E.kernel0 r k

/-- Normalized spatial kernel. -/
def kernel (r k : ℕ) : α := E.kernel0 r k / E.kernelSum

/-- Adjusted inverse variance `self.ivarf` (flattened). -/
def ivarf (p : ℕ) : α := adjIvar E.sys_err (E.ivarf0 p) (E.scif p)

/-- First masking stage (line 641): `fit_mask = (self.ivarf > 0)`. -/
def fit_mask1 (p : ℕ) : Bool := decide (0 < E.ivarf p)

/-- Second masking stage (line 642):
`fit_mask &= isfinite(scif) & isfinite(ivarf)`. -/
def fit_mask2 (p : ℕ) : Bool := E.fit_mask1 p && (E.sci_finite p && E.ivar_finite p)

/-- Contamination weight (lines 646-656):
`exp(-fcontam*|contam|*sqrt(ivar0))` when a CONTAM extension exists, else 1.
`npExp` and `npSqrt` stand for the numpy primitives. -/
def weightf (npExp npSqrt : α → α) (p : ℕ) : α :=
  if E.has_contam then npExp (-(E.fcontam * |E.contamf p| * npSqrt (E.ivarf0 p))) else 1

/-- Dispersion operator `self.fit_data` built by `_build_model`: row `j`
(one per wavelength column) holds the kernel placed at output columns
`j-NY//2 … j+NY//2-1`, the two edge loops clipping the kernel at the left
and right array boundaries, and — if the exposure is not flux-calibrated —
every row scaled by the sensitivity `self.sens[j]`.  Pixel `p` decodes as
row `p / sh1`, column `p % sh1`.  Shapes are assumed sane (`sh0 ≤ sh1`), as
in the source's slice arithmetic. -/
def fit_data (j p : ℕ) : α :=
  let NY := E.sh0
  let r := p / E.sh1
  let c := p % E.sh1
  let t1 : α := if j < NY / 2 ∧ c < j + NY / 2 then E.kernel r (c + (NY - NY / 2) - j) else 0
  let t2 : α := if E.sh1 - NY / 2 ≤ j ∧ j < E.sh1 ∧ j - NY / 2 ≤ c ∧ c < E.sh1 then
      E.kernel r (c + NY / 2 - j) else 0
  let t3 : α := if NY / 2 ≤ j ∧ j < E.sh1 - NY / 2 ∧ j - NY / 2 ≤ c ∧ c < j + NY / 2 then
      E.kernel r (c + NY / 2 - j) else 0
  (if E.is_flambda then 1 else E.sens j) * (t1 + t2 + t3)

/-- Generate the model spectrum from a 1D flux sampled on the exposure's
wavelength grid (`compute_model`, after the external resampling):
`model = np.dot(fl, fit_data)`. -/
def compute_model (fl : ℕ → α) (p : ℕ) : α :=
  ∑ j ∈ Finset.range E.sh1, fl j * E.fit_data j p

/-- Flat (uniform unit flux) reference model: `self.flat = self.compute_model()`
with the implicit spectrum `fl = self.wave*0+1`. -/
def flat (p : ℕ) : α := E.compute_model (fun _ => 1) p

/-- Maximum of the raw inverse variance, `self.ivarf0.max()`. -/
def ivarf0max : α := arrMax E.ivarf0 E.size

/-- Model amplitude used for the threshold mask (lines 666-669):
`flat*ivarf0/ivarf0.max()` for flux-calibrated data, else `flat`. -/
def elec (p : ℕ) : α :=
  if E.is_flambda then E.flat p * E.ivarf0 p / E.ivarf0max else E.flat p

/-- Maximum of `elec` over all pixels, `elec.max()`. -/
def elecMax : α := arrMax E.elec E.size

/-- Final fit mask (line 671): `fit_mask &= elec > mask_min*elec.max()`.
(`StackFitter` always constructs with `mask_threshold=-1`, so the
`drizzle_mask` branch of line 675 is never taken.) -/
def fit_mask (p : ℕ) : Bool :=
  E.fit_mask2 p && decide (E.mask_min * E.elecMax < E.elec p)

/-- Per-column total of the flat model, `flatf = flat.reshape(sh).sum(axis=0)`. -/
def flatf (c : ℕ) : α := ∑ r ∈ Finset.range E.sh0, E.flat (r * E.sh1 + c)

/-- Extraction profile `prof = flat.reshape(sh)/flatf`. -/
def prof (r c : ℕ) : α := E.flat (r * E.sh1 + c) / E.flatf c

/-- Numerator column sums of `optimal_extract`: `(prof*data*ivar).sum(axis=0)`. -/
def extractNum (data : ℕ → α) (c : ℕ) : α :=
  ∑ r ∈ Finset.range E.sh0, E.prof r c * data (r * E.sh1 + c) * E.ivarf (r * E.sh1 + c)

/-- Denominator column sums of `optimal_extract`: `(prof**2*ivar).sum(axis=0)`
(independent of the extracted data). -/
def extractDen (c : ℕ) : α :=
  ∑ r ∈ Finset.range E.sh0, E.prof r c ^ 2 * E.ivarf (r * E.sh1 + c)

/-- Optimally-extracted 1D flux (`optimal_extract`): `num.sum/den.sum`, with
the zero-fill policy for columns whose variance is zero or non-finite
(in exact arithmetic: a vanishing denominator sum). -/
def opt_flux (data : ℕ → α) (c : ℕ) : α :=
  if E.extractDen c = 0 then 0 else E.extractNum data c / E.extractDen c

/-- Optimally-extracted rms, `sqrt(1/den.sum)` with the same zero-fill. -/
def opt_rms (npSqrt : α → α) (c : ℕ) : α :=
  if E.extractDen c = 0 then 0 else npSqrt (1 / E.extractDen c)

end StackedSpectrum

/-- Concrete flux-calibrated exposure: 2 rows × 4 columns, uniform raw
kernel (normalized to 1/4 per entry), unit raw inverse variance, zero
science array, `sys_err = 0`, `mask_min = 0.1`, no contamination. -/
def Ece : StackedSpectrum ℚ :=
  { sh0 := 2, sh1 := 4, crpix1 := 1, crval1 := 0, cd1_1 := 1,
    kernel0 := fun _ _ => 1, scif := fun _ => 0, ivarf0 := fun _ => 1,
    sci_finite := fun _ => true, ivar_finite := fun _ => true,
    sys_err := 0, mask_min := 1/10, fcontam := 1, is_flambda := true,
    sens := fun _ => 1, has_contam := false, contamf := fun _ => 0 }


/-!
The `StackFitter` model.  The fitter owns one view per exposure; a view
holds what `StackFitter.__init__` reads off each `StackedSpectrum`: the
flattened-array size, the wavelength range `E.wave.min()/max()`, the raw
science and inverse-variance arrays, the contamination weight and the
per-exposure fit mask.  `StackedSpectrum.toView` ties a view to the
exposure model above.
-/

/-- Per-exposure data as read by `StackFitter`. -/
structure ExpView (α : Type) where
  size : ℕ
  wlo : α
  whi : α
  scif : ℕ → α
  ivarf0 : ℕ → α
  weightf : ℕ → α
  fit_mask : ℕ → Bool

/-- View of a constructed `StackedSpectrum` (`npExp`/`npSqrt` are the numpy
primitives entering the contamination weight). -/
def StackedSpectrum.toView (E : StackedSpectrum α) (npExp npSqrt : α → α) : ExpView α :=
  { size := E.size, wlo := arrMin E.wave E.sh1, whi := arrMax E.wave E.sh1,
    scif := E.scif, ivarf0 := E.ivarf0, weightf := E.weightf npExp npSqrt,
    fit_mask := E.fit_mask }

/-- One template column of the `fit_at_z` design matrix.  `lo`/`hi` are the
endpoints `s[0][0]`, `s[0][-1]` of the redshifted template wavelength array
`ti.wave*(1+z)`; `model j q` is `self.E[j].compute_model(spectrum_1d=s)` at
local flattened pixel `q` — i.e. the dispersion operator applied to the
externally resampled redshifted spectrum `[ti.wave*(1+z), ti.flux/(1+z)]`. -/
structure TemplateCol (α : Type) where
  lo : α
  hi : α
  model : ℕ → ℕ → α

instance : Inhabited (TemplateCol α) := ⟨⟨0, 0, fun _ _ => 0⟩⟩

/-- Concatenation (`np.hstack`) of per-exposure arrays into the combined
flattened data vector. -/
def hstackF (g : ExpView α → ℕ → α) : List (ExpView α) → ℕ → α
  | [], _ => 0
  | e :: rest, p => if p < e.size then g e p else hstackF g rest (p - e.size)

/-- Concatenation of per-exposure Boolean masks. -/
def hstackB (g : ExpView α → ℕ → Bool) : List (ExpView α) → ℕ → Bool
  | [], _ => false
  | e :: rest, p => if p < e.size then g e p else hstackB g rest (p - e.size)

/-- Background indicator rows (`_init_background`): row `i` is 1 exactly on
exposure `i`'s pixel range and 0 elsewhere. -/
def bgRowAux : List (ExpView α) → ℕ → ℕ → α
  | [], _, _ => 0
  | e :: _, 0, p => if p < e.size then 1 else 0
  | e :: rest, Nat.succ i, p => if p < e.size then 0 else bgRowAux rest i (p - e.size)

/-- Template row values: for the exposure containing global pixel `p`, zero
when the redshifted template does not overlap that exposure's wavelength
range (`continue` at line 224), else the computed model block (line 228). -/
def tmplRowAux (t : TemplateCol α) : List (ExpView α) → ℕ → ℕ → α
  | [], _, _ => 0
  | e :: rest, j, p =>
      if p < e.size then (if t.lo > e.whi ∨ t.hi < e.wlo then 0 else t.model j p)
      else tmplRowAux t rest (j + 1) (p - e.size)

/-- Pedestal added to the data before whitening (line 234). -/
def pedestal : α := 4/100

/-- The joint fitter: construction parameter `sys_err`, the numpy
square-root primitive, and the per-exposure views. -/
structure StackFitter (α : Type) where
  sys_err : α
  np_sqrt : α → α
  E : List (ExpView α)

namespace StackFitter

variable (F : StackFitter α)

/-- Number of extensions being fit, `self.Next`. -/
def Next : ℕ := F.E.length

/-- Total length of the combined data vector, `self.Ndata`. -/
def Ndata : ℕ := (F.E.map (fun e => e.size)).sum

/-- Combined science vector `self.scif = np.hstack([E.scif ...])`. -/
def scif (p : ℕ) : α := hstackF (fun e => e.scif) F.E p

/-- Combined adjusted inverse variance `np.hstack([E.ivarf ...])`
(line 120, before the weight multiplication). -/
def ivarfE (p : ℕ) : α :=
  hstackF (fun e q => adjIvar F.sys_err (e.ivarf0 q) (e.scif q)) F.E p

/-- Combined contamination weight `self.weightf` (line 122). -/
def weightf (p : ℕ) : α := hstackF (fun e => e.weightf) F.E p

/-- Fitter inverse variance after line 123, `self.ivarf *= self.weightf`. -/
def ivarf (p : ℕ) : α := F.ivarfE p * F.weightf p

/-- Whitening weights `self.sivarf = np.sqrt(self.ivarf)` (line 125). -/
def sivarf (p : ℕ) : α := F.np_sqrt (F.ivarf p)

/-- Combined fit mask `self.fit_mask` (line 127). -/
def fit_mask (p : ℕ) : Bool := hstackB (fun e => e.fit_mask) F.E p

/-- Indicator form of the fit mask, as in `A*self.fit_mask`. -/
def maskInd (p : ℕ) : α := if F.fit_mask p then 1 else 0

/-- Background design-matrix rows `self.Abg` (block indicators). -/
def Abg (i p : ℕ) : α := bgRowAux F.E i p

/-- Template design-matrix row for global pixel `p`. -/
def tmplRow (t : TemplateCol α) (p : ℕ) : α := tmplRowAux t F.E 0 p

/-- Full design matrix `A` of `fit_at_z` (lines 216-228): `Next` background
rows followed by one row per template. -/
def designRow (tm : List (TemplateCol α)) (r p : ℕ) : α :=
  if r < F.Next then F.Abg r p else F.tmplRow (tm.getD (r - F.Next) default) p

/-- Row sums of `A*self.fit_mask` (line 230). -/
def okSum (tm : List (TemplateCol α)) (r : ℕ) : α :=
  ∑ p ∈ Finset.range F.Ndata, F.designRow tm r p * F.maskInd p

/-- Retention flags `oktemp = (A*self.fit_mask).sum(axis=1) != 0`. -/
def oktemp (tm : List (TemplateCol α)) (r : ℕ) : Bool := decide (F.okSum tm r ≠ 0)

/-- Indices of retained design-matrix rows, in order (`A[oktemp,:]`). -/
def okIdx (tm : List (TemplateCol α)) : List ℕ :=
  (List.range (F.Next + tm.length)).filter (fun r => F.oktemp tm r)

/-- Indices of mask-true pixels, in order (boolean indexing `[...,self.fit_mask]`). -/
def maskIdx : List ℕ :=
  (List.range F.Ndata).filter (fun p => F.fit_mask p)

/-- Whitened retained design rows `Ax = A[oktemp,:]*self.sivarf` (line 232). -/
def AxRow (tm : List (TemplateCol α)) (k p : ℕ) : α :=
  F.designRow tm ((F.okIdx tm).getD k 0) p * F.sivarf p

/-- The solver's design matrix `AxT = Ax[:,self.fit_mask].T` (line 236):
entry `(i, k)` is retained row `k` at the `i`-th mask-true pixel. -/
def AxT (tm : List (TemplateCol α)) (i k : ℕ) : α :=
  F.AxRow tm k (F.maskIdx.getD i 0)

/-- The solver's data vector `((self.scif+pedestal)*self.sivarf)[self.fit_mask]`. -/
def dataVec (i : ℕ) : α :=
  (F.scif (F.maskIdx.getD i 0) + pedestal) * F.sivarf (F.maskIdx.getD i 0)

/-- Solver output on the whitened system (line 239-242): `scipy.optimize.nnls`
or `np.linalg.lstsq`, an external service consumed as a function from the
system `(AxT, data)` to a coefficient vector over the retained rows. -/
def coeffs (tm : List (TemplateCol α))
    (solver : (ℕ → ℕ → α) → (ℕ → α) → (ℕ → α)) : ℕ → α :=
  solver (F.AxT tm) F.dataVec

/-- Background model (line 244):
`np.dot(coeffs[:Next], A[:Next,:]) - pedestal`. -/
def background (tm : List (TemplateCol α))
    (solver : (ℕ → ℕ → α) → (ℕ → α) → (ℕ → α)) (p : ℕ) : α :=
  (∑ i ∈ Finset.range F.Next, F.coeffs tm solver i * F.designRow tm i p) - pedestal

/-- Full template model (line 245):
`np.dot(coeffs[Next:], Ax[Next:,:]/self.sivarf)` — the whitened retained
template rows divided again, elementwise, by `sivarf`. -/
def fullModel (tm : List (TemplateCol α))
    (solver : (ℕ → ℕ → α) → (ℕ → α) → (ℕ → α)) (p : ℕ) : α :=
  ∑ k ∈ Finset.Ico F.Next (F.okIdx tm).length,
    F.coeffs tm solver k * (F.AxRow tm k p / F.sivarf p)

/-- Residual `resid = self.scif - full - background` (line 247). -/
def residf (tm : List (TemplateCol α))
    (solver : (ℕ → ℕ → α) → (ℕ → α) → (ℕ → α)) (p : ℕ) : α :=
  F.scif p - F.fullModel tm solver p - F.background tm solver p

/-- Chi-squared (line 248): `np.sum(resid[fit_mask]**2*ivarf[fit_mask])`. -/
def chi2 (tm : List (TemplateCol α))
    (solver : (ℕ → ℕ → α) → (ℕ → α) → (ℕ → α)) : α :=
  ∑ p ∈ Finset.range F.Ndata,
    if F.fit_mask p then F.residf tm solver p ^ 2 * F.ivarf p else 0

/-- Per-retained-row uncertainties (lines 250-259): when requested, the
square root of the diagonal of `np.matrix(AxT.T @ AxT).I` — the inverse is
an external service whose failure on a singular matrix (`LinAlgError`,
caught by the bare `except`) is modelled by `none` — and all zeros when the
inversion failed or uncertainties were not requested. -/
def covard (get_unc : Bool) (inv : Option (ℕ → ℕ → α)) (k : ℕ) : α :=
  if get_unc then
    match inv with
    | some cv => F.np_sqrt (cv k k)
    | none => 0
  else 0

/-- Zero-filled template coefficients in pre-drop ordering (lines 261-262):
`full_coeffs = np.zeros(NTEMP); full_coeffs[oktemp[Next:]] = coeffs[Next:]`. -/
def coeffsOut (tm : List (TemplateCol α))
    (solver : (ℕ → ℕ → α) → (ℕ → α) → (ℕ → α)) : List α :=
  (List.range tm.length).map fun t =>
    if F.oktemp tm (F.Next + t) then
      F.coeffs tm solver ((F.okIdx tm).indexOf (F.Next + t))
    else 0

/-- Zero-filled template coefficient uncertainties (lines 264-265). -/
def errOut (tm : List (TemplateCol α)) (get_unc : Bool)
    (inv : Option (ℕ → ℕ → α)) : List α :=
  (List.range tm.length).map fun t =>
    if F.oktemp tm (F.Next + t) then
      F.covard get_unc inv ((F.okIdx tm).indexOf (F.Next + t))
    else 0

/-- All background rows retained.  When an exposure contributes no mask-true
pixel its background row is dropped by `oktemp` and the numpy pipeline
raises (`np.dot` shape mismatch at line 244 when fewer retained rows than
`Next` exist, else boolean-assignment count mismatch at line 262), so the
call returns a value exactly when this holds. -/
def allBgOk (tm : List (TemplateCol α)) : Bool :=
  (List.range F.Next).all (fun i => F.oktemp tm i)

end StackFitter

/-- Value returned by `fit_at_z`. -/
structure FitResult (α : Type) where
  chi2 : α
  background : ℕ → α
  full : ℕ → α
  coeffs : List α
  err : List α

namespace StackFitter

variable (F : StackFitter α)

/-- The `fit_at_z` pipeline (lines 178-267).  The templates are supplied in
already-redshifted form (see `TemplateCol`), the solver and the
covariance inverse are the external services, and `none` is returned when
the numpy pipeline would raise (see `allBgOk`). -/
def fit_at_z (tm : List (TemplateCol α))
    (solver : (ℕ → ℕ → α) → (ℕ → α) → (ℕ → α)) (get_unc : Bool)
    (inv : Option (ℕ → ℕ → α)) : Option (FitResult α) :=
  if F.allBgOk tm then
    some { chi2 := F.chi2 tm solver
           background := F.background tm solver
           full := F.fullModel tm solver
           coeffs := F.coeffsOut tm solver
           err := F.errOut tm get_unc inv }
  else none

/-- State-passing form of `fit_at_z`: the Python body of `fit_at_z` (and of
the `compute_model` calls it makes) binds only local names — `A`, `oktemp`,
`Ax`, `AxT`, `data`, `coeffs`, `background`, `full`, `resid`, `chi2`,
`covar`, `covard`, `full_coeffs`, `full_coeffs_err` — and never assigns an
attribute of `self` or of any owned `StackedSpectrum`, so its faithful
state-passing translation returns the input state unchanged next to the
value. -/
def fit_at_z_st (tm : List (TemplateCol α))
    (solver : (ℕ → ℕ → α) → (ℕ → α) → (ℕ → α)) (get_unc : Bool)
    (inv : Option (ℕ → ℕ → α)) : StackFitter α × Option (FitResult α) :=
  (F, F.fit_at_z tm solver get_unc inv)

end StackFitter



namespace StackFitter

variable (F : StackFitter α)

/-- Original-ordering indices of the retained templates (positions where
`oktemp[Next:]` is true). -/
def tmplIdx (tm : List (TemplateCol α)) : List ℕ :=
  (List.range tm.length).filter (fun t => F.oktemp tm (F.Next + t))

/-- Spec-side reading of the returned full model for C3 (defined from the
claim's words, for comparison): the linear combination of the returned
(zero-filled) template coefficients with the original, non-whitened
template basis columns. -/
def specFullModel (tm : List (TemplateCol α))
    (solver : (ℕ → ℕ → α) → (ℕ → α) → (ℕ → α)) (p : ℕ) : α :=
  ∑ t ∈ Finset.range tm.length,
    (F.coeffsOut tm solver).getD t 0 * F.tmplRow (tm.getD t default) p

/-- Spec-side reading of chi-squared for C2 (defined from the claim's words,
for comparison): sum over mask-true pixels of the squared residual times the
systematic-error-adjusted inverse variance `1/(1/ivar_raw + (sys_err*flux)^2)`
alone — without the contamination weight. -/
def specChi2 (tm : List (TemplateCol α))
    (solver : (ℕ → ℕ → α) → (ℕ → α) → (ℕ → α)) : α :=
  ∑ p ∈ Finset.range F.Ndata,
    if F.fit_mask p then
      (F.scif p - F.fullModel tm solver p - F.background tm solver p) ^ 2 * F.ivarfE p
    else 0

end StackFitter

/-- Constant-coefficient solver stand-in (a possible output of the external
nnls/lstsq service), used for concrete instantiations. -/
def solver1 : (ℕ → ℕ → ℚ) → (ℕ → ℚ) → (ℕ → ℚ) := fun _ _ _ => 1

/-- Zero-coefficient solver stand-in. -/
def solver0 {β : Type} [LinearOrderedField β] :
    (ℕ → ℕ → β) → (ℕ → β) → (ℕ → β) := fun _ _ _ => 0

/-- Concrete exposure view over ℚ: two pixels; pixel 0 has unit raw inverse
variance and is mask-true, pixel 1 has zero raw inverse variance and is
masked out (exactly the mask the `StackedSpectrum` pipeline produces for
such data). -/
def vq : ExpView ℚ :=
  { size := 2, wlo := 0, whi := 10, scif := fun _ => 1,
    ivarf0 := fun q => if q = 0 then 1 else 0, weightf := fun _ => 1,
    fit_mask := fun q => decide (q = 0) }

/-- Single-exposure fitter over ℚ built on `vq`; `np.sqrt` is modelled by
the identity, which agrees with the square root at the only values it is
applied to here (0 and 1). -/
def Fq : StackFitter ℚ := { sys_err := 0, np_sqrt := fun x => x, E := [vq] }

/-- Template overlapping `vq`'s wavelength range with model values 1 at
pixel 0 and 5 at (zero-ivar) pixel 1. -/
def Tq : TemplateCol ℚ := { lo := 1, hi := 2, model := fun _ q => if q = 0 then 1 else 5 }

/-- Template whose model is identically zero (entirely unconstrained). -/
def Tzero : TemplateCol ℚ := { lo := 1, hi := 2, model := fun _ _ => 0 }

/-- Exposure view over ℚ with both pixels mask-true and unit ivar. -/
def vq2 : ExpView ℚ :=
  { size := 2, wlo := 0, whi := 10, scif := fun _ => 0,
    ivarf0 := fun _ => 1, weightf := fun _ => 1, fit_mask := fun _ => true }

/-- Single-exposure fitter over ℚ built on `vq2`. -/
def Fq2 : StackFitter ℚ := { sys_err := 0, np_sqrt := fun x => x, E := [vq2] }

/-- Template with model values +1 and −1 on the two mask-true pixels of
`vq2`: its masked contributions cancel in sum without being zero. -/
def Tpm : TemplateCol ℚ := { lo := 1, hi := 2, model := fun _ q => if q = 0 then 1 else -1 }

/-- Payload returned by `Fq.fit_at_z [Tq] solver1 false none`. -/
def resQ : FitResult ℚ :=
  { chi2 := Fq.chi2 [Tq] solver1, background := Fq.background [Tq] solver1,
    full := Fq.fullModel [Tq] solver1, coeffs := Fq.coeffsOut [Tq] solver1,
    err := Fq.errOut [Tq] false none }

/-- Payload returned by `Fq.fit_at_z [Tq] solver1 true none` (uncertainties
requested, singular covariance). -/
def resQ5 : FitResult ℚ :=
  { chi2 := Fq.chi2 [Tq] solver1, background := Fq.background [Tq] solver1,
    full := Fq.fullModel [Tq] solver1, coeffs := Fq.coeffsOut [Tq] solver1,
    err := Fq.errOut [Tq] true none }

/-- Payload returned by `Fq.fit_at_z [Tq, Tzero] solver1 false none` (one
retained and one dropped template). -/
def resQ4 : FitResult ℚ :=
  { chi2 := Fq.chi2 [Tq, Tzero] solver1, background := Fq.background [Tq, Tzero] solver1,
    full := Fq.fullModel [Tq, Tzero] solver1, coeffs := Fq.coeffsOut [Tq, Tzero] solver1,
    err := Fq.errOut [Tq, Tzero] false none }


/-- Contamination weight of `StackedSpectrum.__init__` line 648 over ℝ:
`np.exp(-fcontam*|contam|*np.sqrt(ivar0))`. -/
noncomputable def contamWeight (fcontam contam ivar0 : ℝ) : ℝ :=
  Real.exp (-(fcontam * |contam| * Real.sqrt ivar0))

/-- One-pixel exposure view over ℝ: unit raw inverse variance, unit science
flux, a CONTAM extension with unit contamination and `fcontam = 1` — so the
stored weight is `contamWeight 1 1 1 = exp(-1)` — and a mask-true pixel. -/
noncomputable def vr : ExpView ℝ :=
  { size := 1, wlo := 0, whi := 10, scif := fun _ => 1, ivarf0 := fun _ => 1,
    weightf := fun _ => contamWeight 1 1 1, fit_mask := fun _ => true }

/-- Single-exposure ℝ fitter on `vr` with `sys_err = 0`. -/
noncomputable def Fr : StackFitter ℝ :=
  { sys_err := 0, np_sqrt := Real.sqrt, E := [vr] }

/-- Payload returned by `Fr.fit_at_z [] solver0 false none`. -/
noncomputable def resR : FitResult ℝ :=
  { chi2 := Fr.chi2 [] solver0, background := Fr.background [] solver0,
    full := Fr.fullModel [] solver0, coeffs := Fr.coeffsOut [] solver0,
    err := Fr.errOut [] false none }


/-! The redshift-grid scan of `fit_zgrid` (lines 316-350), over ℝ since the
grid is log-spaced.  The per-redshift chi-squared evaluation (a `fit_at_z`
call with the line-complex templates) enters as an opaque function. -/

/-- Length of `np.arange(x0, x1, d)` for a positive step `d`:
`⌈(x1-x0)/d⌉`, and 0 when the range is empty. -/
noncomputable def arangeLen (x0 x1 d : ℝ) : ℕ := ⌈(x1 - x0) / d⌉₊

/-- `np.arange(x0, x1, d)` for a positive step. -/
noncomputable def npArange (x0 x1 d : ℝ) : List ℝ :=
  (List.range (arangeLen x0 x1 d)).map (fun k : ℕ => x0 + (k : ℝ) * d)

/-- Modelled from the spec: `grizli.utils.log_zgrid` is repository code not
under `src/`; per spec §4.3 the grid is "redshift samples uniform in
`log(1+z)` with step `dz0` over range `[z_min, z_max]`", i.e.
`np.exp(np.arange(log(1+zr0), log(1+zr1), dz)) - 1`. -/
noncomputable def log_zgrid (zr0 zr1 dz : ℝ) : List ℝ :=
  (npArange (Real.log (1 + zr0)) (Real.log (1 + zr1)) dz).map (fun x => Real.exp x - 1)

/-- First-minimum fold underlying `np.argmin` (strict improvement only, so
the FIRST index attaining the minimum is kept, as numpy does). -/
noncomputable def argminGo : List ℝ → ℝ → ℕ → ℕ → ℕ
  | [], _, bi, _ => bi
  | c :: rest, b, bi, ci =>
      if c < b then argminGo rest c ci (ci + 1) else argminGo rest b bi (ci + 1)

/-- `np.argmin` (0 on the empty list, where numpy raises). -/
noncomputable def npArgmin : List ℝ → ℕ
  | [] => 0
  | c :: rest => argminGo rest c 0 1

/-- Segment walk of `np.interp` (ascending sample points assumed, as numpy
requires). -/
noncomputable def interpGo (x0 f0 : ℝ) : List ℝ → List ℝ → ℝ → ℝ
  | [], _, _ => f0
  | _, [], _ => f0
  | x1 :: xs, f1 :: fs, x =>
      if x ≤ x1 then f0 + (f1 - f0) * (x - x0) / (x1 - x0)
      else interpGo x1 f1 xs fs x

/-- `np.interp(x, xp, fp)`: piecewise-linear interpolation clamped at both
ends (0 on empty samples, where numpy raises). -/
noncomputable def npInterp (xp fp : List ℝ) (x : ℝ) : ℝ :=
  match xp, fp with
  | [], _ => 0
  | _, [] => 0
  | x0 :: xs, f0 :: fs => if x ≤ x0 then f0 else interpGo x0 f0 xs fs x

/-- Accumulated scan state of `fit_zgrid`: the appended `z` and `chi2`
arrays and the current round's grid `zi` with its chi-squared `ci`. -/
structure ZScanState where
  z : List ℝ
  chi2 : List ℝ
  zi : List ℝ
  ci : List ℝ

/-- Prior-adjusted objective of a round (lines 328-332): `ci + np.interp(zi,
prior[0], prior[1])` when a prior is supplied, else `ci`. -/
noncomputable def chiWithPrior (prior : Option (List ℝ × List ℝ)) (st : ZScanState) : List ℝ :=
  match prior with
  | none => st.ci
  | some pr => List.zipWith (· + ·) st.ci (st.zi.map (npInterp pr.1 pr.2))

/-- One refinement round of `fit_zgrid` (body of `for iter in range(1,7)`,
lines 327-350): minimum of the prior-adjusted chi-squared of the previous
grid, new log-spaced grid of half-width `4*dz` with `dz = dz0/2.02^iter`
centered there, evaluation of the fit on it, and append — duplicates
retained. -/
noncomputable def refineStep (fitChi2 : ℝ → ℝ) (prior : Option (List ℝ × List ℝ))
    (dz0 : ℝ) (st : ZScanState) (k : ℕ) : ZScanState :=
  let iz := npArgmin (chiWithPrior prior st)
  let z0 := st.zi.getD iz 0
  let dz := dz0 / (202/100 : ℝ) ^ k
  let zi := log_zgrid (z0 - dz * 4) (z0 + dz * 4) dz
  let ci := zi.map fitChi2
  { z := st.z ++ zi, chi2 := st.chi2 ++ ci, zi := zi, ci := ci }

/-- State after the coarse scan (lines 316-326). -/
noncomputable def coarseState (fitChi2 : ℝ → ℝ) (dz0 zr0 zr1 : ℝ) : ZScanState :=
  { z := log_zgrid zr0 zr1 dz0, chi2 := (log_zgrid zr0 zr1 dz0).map fitChi2,
    zi := log_zgrid zr0 zr1 dz0, ci := (log_zgrid zr0 zr1 dz0).map fitChi2 }

/-- The scan portion of `fit_zgrid`: a coarse scan then exactly six
refinement rounds at `iter = 1..6` with no early exit or convergence check;
the finalize step (sort, prior application, reporting) always follows. -/
noncomputable def fitZgridScan (fitChi2 : ℝ → ℝ) (prior : Option (List ℝ × List ℝ))
    (dz0 zr0 zr1 : ℝ) : ZScanState :=
  [1, 2, 3, 4, 5, 6].foldl (refineStep fitChi2 prior dz0) (coarseState fitChi2 dz0 zr0 zr1)

/-- Trapezoid-rule integral `np.trapz(y, x)` over paired `(x, y)` samples. -/
def trapz : List (α × α) → α
  | [] => 0
  | [_] => 0
  | (x0, y0) :: (x1, y1) :: rest => (x1 - x0) * (y0 + y1) / 2 + trapz ((x1, y1) :: rest)

/-- Per-line equivalent-width measurement of `fit_zgrid` (lines 406-426).
The branch taken when `coeffs[i] == 0` is source code under `src/`; the
composite-spectrum branch uses `Template.zscale` and template addition,
repository code not under `src/`, modelled from the spec (§4.3): numerator
(line scaled by the coefficient, plus continuum) and denominator (continuum
only) on a common wavelength grid `cw` (`lf` the line flux resampled there,
`cf` the continuum flux), clipped to the line's native support
`[lineLo, lineHi]`, integrating `tn/td - 1` by the trapezoid rule; a
non-finite result — in exact arithmetic a zero denominator sample on the
clip — is replaced by the sentinel -1000. -/
def lineEW (coeff : α) (cw lf cf : List α) (lineLo lineHi : α) : α :=
  if coeff = 0 then 0
  else
    let pts := (cw.zip (lf.zip cf)).filter
      (fun q => decide (lineLo ≤ q.1) && decide (q.1 ≤ lineHi))
    if pts.all (fun q => decide (q.2.2 ≠ 0)) then
      trapz (pts.map (fun q => (q.1, (coeff * q.2.1 + q.2.2) / q.2.2 - 1)))
    else -1000

/-! ## Theorems -/

/-! Helper lemmas about `arrMax`. -/

theorem arrMax_zero (f : ℕ → α) : arrMax f 0 = f 0 := rfl

theorem arrMax_succ (f : ℕ → α) (n : ℕ) :
    arrMax f (n + 1) = max (arrMax f n) (f n) := by
  simp [arrMax, List.range_succ, List.foldl_append]

theorem arrMax_le (f : ℕ → α) (n : ℕ) (b : α) (h0 : f 0 ≤ b)
    (h : ∀ i < n, f i ≤ b) : arrMax f n ≤ b := by
  induction n with
  | zero => simpa [arrMax_zero] using h0
  | succ m ih =>
      rw [arrMax_succ]
      exact max_le (ih fun i hi => h i (Nat.lt_succ_of_lt hi)) (h m (Nat.lt_succ_self m))

theorem le_arrMax_zero (f : ℕ → α) (n : ℕ) : f 0 ≤ arrMax f n := by
  induction n with
  | zero => simp [arrMax_zero]
  | succ m ih => rw [arrMax_succ]; exact le_max_of_le_left ih

namespace StackedSpectrum

variable (E : StackedSpectrum α)

/-- Key algebra of self-extraction: with the flat model itself as the data,
the numerator column sum is the per-column flat total times the denominator
column sum (each numerator term is `prof*(prof*flatf)*ivar`). -/
theorem extractNum_flat (c : ℕ) (hf : E.flatf c ≠ 0) :
    E.extractNum E.flat c = E.flatf c * E.extractDen c := by
  unfold extractNum extractDen
  rw [Finset.mul_sum]
  refine Finset.sum_congr rfl fun r _ => ?_
  have hp : E.flat (r * E.sh1 + c) = E.prof r c * E.flatf c := by
    rw [prof, div_mul_cancel₀ _ hf]
  rw [hp]; ring

/-- Monotone-narrowing of the fit mask, stage 2 to stage 1. -/
theorem fit_mask2_le (p : ℕ) (h : E.fit_mask2 p = true) : E.fit_mask1 p = true := by
  simpa [fit_mask2, Bool.and_eq_true] using And.left (by simpa [fit_mask2, Bool.and_eq_true] using h)

/-- Monotone-narrowing of the fit mask, final stage to stage 2. -/
theorem fit_mask_le (p : ℕ) (h : E.fit_mask p = true) : E.fit_mask2 p = true := by
  simpa [fit_mask, Bool.and_eq_true] using And.left (by simpa [fit_mask, Bool.and_eq_true] using h)

/-- Count of mask-true pixels at the final stage is at most the stage-2 count. -/
theorem card_fit_mask_le :
    ((Finset.range E.size).filter (fun p => E.fit_mask p = true)).card ≤
      ((Finset.range E.size).filter (fun p => E.fit_mask2 p = true)).card := by
  refine Finset.card_le_card (fun p hp => ?_)
  rw [Finset.mem_filter] at hp ⊢
  exact ⟨hp.1, E.fit_mask_le p hp.2⟩

/-- Count of mask-true pixels at stage 2 is at most the stage-1 count. -/
theorem card_fit_mask2_le :
    ((Finset.range E.size).filter (fun p => E.fit_mask2 p = true)).card ≤
      ((Finset.range E.size).filter (fun p => E.fit_mask1 p = true)).card := by
  refine Finset.card_le_card (fun p hp => ?_)
  rw [Finset.mem_filter] at hp ⊢
  exact ⟨hp.1, E.fit_mask2_le p hp.2⟩

end StackedSpectrum

/-- C7: during `StackedSpectrum` construction each successive masking
criterion (positive adjusted inverse variance; finite science and ivar;
model amplitude above `mask_min` times its maximum) is applied by
conjunction, so each stage's mask-true set is a subset of the previous
stage's and the mask-true pixel count is non-increasing. -/
theorem c7_mask_monotone_narrowing (E : StackedSpectrum α) :
    (∀ p, E.fit_mask2 p = true → E.fit_mask1 p = true) ∧
    (∀ p, E.fit_mask p = true → E.fit_mask2 p = true) ∧
    ((Finset.range E.size).filter (fun p => E.fit_mask p = true)).card ≤
      ((Finset.range E.size).filter (fun p => E.fit_mask2 p = true)).card ∧
    ((Finset.range E.size).filter (fun p => E.fit_mask2 p = true)).card ≤
      ((Finset.range E.size).filter (fun p => E.fit_mask1 p = true)).card :=
  ⟨E.fit_mask2_le, E.fit_mask_le, E.card_fit_mask_le, E.card_fit_mask2_le⟩

/-- C6 (amended form): extracting the exposure's own flat reference model as
the data returns, at every column whose flat total and weighted denominator
are nonzero, exactly the per-column total `flatf` of the flat model — not
the constant 1. -/
theorem c6_extract_flat_returns_column_total (E : StackedSpectrum α) (c : ℕ)
    (hf : E.flatf c ≠ 0) (hd : E.extractDen c ≠ 0) :
    E.opt_flux E.flat c = E.flatf c := by
  rw [StackedSpectrum.opt_flux, if_neg hd, E.extractNum_flat c hf,
    mul_div_assoc, div_self hd, mul_one]

/-- Constant-array maximum. -/
theorem arrMax_const (b : α) (n : ℕ) : arrMax (fun _ => b) n = b := by
  induction n with
  | zero => rfl
  | succ m ih => rw [arrMax_succ, ih, max_self]

theorem Ece_sh0 : Ece.sh0 = 2 := rfl

theorem Ece_sh1 : Ece.sh1 = 4 := rfl

theorem Ece_kernel0 (r k : ℕ) : Ece.kernel0 r k = 1 := rfl

theorem Ece_scif (p : ℕ) : Ece.scif p = 0 := rfl

theorem Ece_ivarf0 (p : ℕ) : Ece.ivarf0 p = 1 := rfl

theorem Ece_sci_finite (p : ℕ) : Ece.sci_finite p = true := rfl

theorem Ece_ivar_finite (p : ℕ) : Ece.ivar_finite p = true := rfl

theorem Ece_sys_err : Ece.sys_err = 0 := rfl

theorem Ece_mask_min : Ece.mask_min = 1/10 := rfl

theorem Ece_is_flambda : Ece.is_flambda = true := rfl

theorem Ece_size : Ece.size = 8 := rfl

theorem Ece_kernel (r k : ℕ) : Ece.kernel r k = 1/4 := by
  simp [StackedSpectrum.kernel, StackedSpectrum.kernelSum, Ece_sh0, Ece_kernel0,
    Finset.sum_range_succ]
  norm_num

theorem Ece_ivarf (p : ℕ) : Ece.ivarf p = 1 := by
  rw [StackedSpectrum.ivarf, Ece_sys_err, Ece_ivarf0, Ece_scif, adjIvar]
  norm_num

theorem Ece_flat (p : ℕ) : Ece.flat p = if p % 4 = 3 then 1/4 else 1/2 := by
  have h4 : p % 4 = 0 ∨ p % 4 = 1 ∨ p % 4 = 2 ∨ p % 4 = 3 := by omega
  have hk := Ece_kernel
  rcases h4 with h | h | h | h <;>
    simp +decide [StackedSpectrum.flat, StackedSpectrum.compute_model, Finset.sum_range_succ,
      StackedSpectrum.fit_data, Ece_sh0, Ece_sh1, Ece_is_flambda, h, hk] <;> norm_num

theorem Ece_flatf0 : Ece.flatf 0 = 1 := by
  norm_num [StackedSpectrum.flatf, Finset.sum_range_succ, Ece_sh0, Ece_sh1, Ece_flat]

theorem Ece_flatf3 : Ece.flatf 3 = 1/2 := by
  norm_num [StackedSpectrum.flatf, Finset.sum_range_succ, Ece_sh0, Ece_sh1, Ece_flat]

theorem Ece_den0 : Ece.extractDen 0 = 1/2 := by
  simp [StackedSpectrum.extractDen, StackedSpectrum.prof, Finset.sum_range_succ, Ece_ivarf,
    Ece_flatf0, Ece_flat, Ece_sh0, Ece_sh1]
  norm_num

theorem Ece_den3 : Ece.extractDen 3 = 1/2 := by
  simp [StackedSpectrum.extractDen, StackedSpectrum.prof, Finset.sum_range_succ, Ece_ivarf,
    Ece_flatf3, Ece_flat, Ece_sh0, Ece_sh1]
  norm_num

theorem Ece_elec (p : ℕ) : Ece.elec p = Ece.flat p := by
  have hmax : Ece.ivarf0max = 1 := by
    rw [StackedSpectrum.ivarf0max]; exact arrMax_const 1 _
  rw [StackedSpectrum.elec, Ece_is_flambda, if_pos rfl, hmax, Ece_ivarf0]
  ring

theorem Ece_elecMax : Ece.elecMax = 1/2 := by
  rw [StackedSpectrum.elecMax, Ece_size]
  rw [show (8 : ℕ) = 7 + 1 from rfl, arrMax_succ, arrMax_succ, arrMax_succ, arrMax_succ,
    arrMax_succ, arrMax_succ, arrMax_succ, arrMax_succ, arrMax_zero]
  simp [Ece_elec, Ece_flat]
  norm_num [max_def]

theorem Ece_mask3 : Ece.fit_mask 3 = true := by
  simp [StackedSpectrum.fit_mask, StackedSpectrum.fit_mask2, StackedSpectrum.fit_mask1,
    Ece_ivarf, Ece_elecMax, Ece_elec, Ece_flat, Ece_mask_min, Ece_sci_finite, Ece_ivar_finite]
  norm_num

theorem Ece_mask7 : Ece.fit_mask 7 = true := by
  simp [StackedSpectrum.fit_mask, StackedSpectrum.fit_mask2, StackedSpectrum.fit_mask1,
    Ece_ivarf, Ece_elecMax, Ece_elec, Ece_flat, Ece_mask_min, Ece_sci_finite, Ece_ivar_finite]
  norm_num

/-- C6 counterexample: in the exposure `Ece` the two pixels of column 3 are
mask-true (unmasked), yet optimal extraction of the exposure's own flat model
returns 1/2 — not 1 — at that column (the clipped kernel makes that edge
column of the flat model sum to 1/2). -/
theorem c6_counterexample :
    Ece.fit_mask 3 = true ∧ Ece.fit_mask 7 = true ∧
      Ece.opt_flux Ece.flat 3 = 1/2 ∧ ((1 : ℚ)/2 ≠ 1) := by
  refine ⟨Ece_mask3, Ece_mask7, ?_, by norm_num⟩
  have hnum : Ece.extractNum Ece.flat 3 = 1/4 := by
    simp [StackedSpectrum.extractNum, StackedSpectrum.prof, Finset.sum_range_succ,
      Ece_ivarf, Ece_flatf3, Ece_flat, Ece_sh0, Ece_sh1]
    norm_num
  rw [StackedSpectrum.opt_flux, if_neg (by rw [Ece_den3]; norm_num), hnum, Ece_den3]
  norm_num

/-- Witness for the amended C6 theorem at column 0 of `Ece`. -/
theorem c6_witness :
    Ece.flatf 0 ≠ 0 ∧ Ece.extractDen 0 ≠ 0 ∧ Ece.opt_flux Ece.flat 0 = Ece.flatf 0 := by
  have h1 : Ece.flatf 0 ≠ 0 := by rw [Ece_flatf0]; norm_num
  have h2 : Ece.extractDen 0 ≠ 0 := by rw [Ece_den0]; norm_num
  exact ⟨h1, h2, c6_extract_flat_returns_column_total Ece 0 h1 h2⟩

/-- Witness for C7 at pixel 3 of `Ece`. -/
theorem c7_witness :
    Ece.fit_mask 3 = true ∧ Ece.fit_mask2 3 = true ∧ Ece.fit_mask1 3 = true := by
  have h2 := (c7_mask_monotone_narrowing Ece).2.1 3 Ece_mask3
  exact ⟨Ece_mask3, h2, (c7_mask_monotone_narrowing Ece).1 3 h2⟩


/-! Theorems about `fit_at_z`: column dropping (C1). -/

namespace StackFitter

variable (F : StackFitter α)

/-- The masked row sum of line 230 as a sum over the mask-true pixels. -/
theorem okSum_eq_masked_sum (tm : List (TemplateCol α)) (r : ℕ) :
    F.okSum tm r =
      ∑ p ∈ (Finset.range F.Ndata).filter (fun p => F.fit_mask p = true),
        F.designRow tm r p := by
  rw [Finset.sum_filter]
  refine Finset.sum_congr rfl fun p _ => ?_
  unfold maskInd
  by_cases h : F.fit_mask p <;> simp [h]

end StackFitter

/-- C1 (amended): a design-matrix row is dropped iff the SUM of its entries
over the mask-true pixels is zero.  Hence a row whose masked entries are all
zero is dropped, and a retained row has some nonzero masked entry — but a
row with nonzero masked entries cancelling in sum is dropped too, so
retention is not equivalent to having a nonzero masked entry. -/
theorem c1_drop_iff_masked_sum_zero (F : StackFitter α) (tm : List (TemplateCol α)) (r : ℕ) :
    (F.oktemp tm r = false ↔
      ∑ p ∈ (Finset.range F.Ndata).filter (fun p => F.fit_mask p = true),
        F.designRow tm r p = 0) ∧
    ((∀ p, p < F.Ndata → F.fit_mask p = true → F.designRow tm r p = 0) →
      F.oktemp tm r = false) ∧
    (F.oktemp tm r = true →
      ∃ p, p < F.Ndata ∧ F.fit_mask p = true ∧ F.designRow tm r p ≠ 0) := by
  have hiff : F.oktemp tm r = false ↔
      ∑ p ∈ (Finset.range F.Ndata).filter (fun p => F.fit_mask p = true),
        F.designRow tm r p = 0 := by
    rw [← F.okSum_eq_masked_sum tm r]
    simp [StackFitter.oktemp]
  refine ⟨hiff, fun h => hiff.mpr ?_, fun h => ?_⟩
  · refine Finset.sum_eq_zero fun p hp => ?_
    rw [Finset.mem_filter, Finset.mem_range] at hp
    exact h p hp.1 hp.2
  · by_contra hc
    push_neg at hc
    have hz : ∑ p ∈ (Finset.range F.Ndata).filter (fun p => F.fit_mask p = true),
        F.designRow tm r p = 0 := by
      refine Finset.sum_eq_zero fun p hp => ?_
      rw [Finset.mem_filter, Finset.mem_range] at hp
      exact hc p hp.1 hp.2
    rw [← hiff] at hz
    rw [h] at hz
    cases hz

theorem Fq2_Ndata : Fq2.Ndata = 2 := rfl

theorem Fq2_Next : Fq2.Next = 1 := rfl

theorem Fq2_design_Tpm (p : ℕ) :
    Fq2.designRow [Tpm] 1 p = if p < 2 then (if p = 0 then 1 else -1) else 0 := by
  by_cases hp : p < 2
  · rcases (by omega : p = 0 ∨ p = 1) with h | h <;>
      simp [h, StackFitter.designRow, StackFitter.tmplRow, tmplRowAux, Fq2, vq2, Tpm,
        StackFitter.Next]
  · simp [hp, StackFitter.designRow, StackFitter.tmplRow, tmplRowAux, Fq2, vq2, Tpm,
      StackFitter.Next]

theorem Fq2_maskInd (p : ℕ) : Fq2.maskInd p = if p < 2 then 1 else 0 := by
  by_cases hp : p < 2 <;>
    simp [StackFitter.maskInd, StackFitter.fit_mask, hstackB, Fq2, vq2, hp]

/-- C1 counterexample: in `Fq2` with the single template `Tpm`, the template
column has the nonzero entry 1 at mask-true pixel 0, yet `oktemp` drops it
because its masked entries (+1 at pixel 0, −1 at pixel 1) sum to zero —
refuting that every column with a nonzero masked entry is retained. -/
theorem c1_counterexample :
    Fq2.oktemp [Tpm] 1 = false ∧ Fq2.fit_mask 0 = true ∧
      Fq2.designRow [Tpm] 1 0 = 1 ∧ ((1 : ℚ) ≠ 0) := by
  refine ⟨?_, rfl, by rw [Fq2_design_Tpm]; norm_num, one_ne_zero⟩
  have h := Fq2_design_Tpm
  have hm := Fq2_maskInd
  simp [StackFitter.oktemp, StackFitter.okSum, Fq2_Ndata, Finset.sum_range_succ, h, hm]

/-- Witness for the amended C1 theorem: the all-zero template column `Tzero`
is dropped by `Fq2`. -/
theorem c1_witness : Fq2.oktemp [Tzero] 1 = false := by
  refine (c1_drop_iff_masked_sum_zero Fq2 [Tzero] 1).2.1 fun p hp hm => ?_
  have h1 : ¬ (1 < Fq2.Next) := by rw [Fq2_Next]; omega
  by_cases h2 : p < 2 <;>
    simp [StackFitter.designRow, h1, StackFitter.tmplRow, tmplRowAux, Fq2, vq2, Tzero,
      StackFitter.Next, h2]

/-- C9: `fit_at_z` run in state-passing form returns the fitter state
unchanged, and its value is a pure function of that state and the
arguments — so two calls with identical arguments on the same state give
identical results. -/
theorem c9_fit_at_z_pure (F : StackFitter α) (tm : List (TemplateCol α))
    (solver : (ℕ → ℕ → α) → (ℕ → α) → (ℕ → α)) (g : Bool) (inv : Option (ℕ → ℕ → α)) :
    (F.fit_at_z_st tm solver g inv).1 = F ∧
      (F.fit_at_z_st tm solver g inv).2 = F.fit_at_z tm solver g inv :=
  ⟨rfl, rfl⟩

/-- C5: with uncertainties requested and the covariance inverse failing
(singular matrix, `LinAlgError` caught by the bare `except`), the call
returns exactly what it returns without uncertainties — same chi-squared,
background, full model and coefficients — the uncertainty vector is
all-zero, and a value is returned whenever the pipeline would return one at
all (`allBgOk`). -/
theorem c5_singular_covar_zero_err (F : StackFitter α) (tm : List (TemplateCol α))
    (solver : (ℕ → ℕ → α) → (ℕ → α) → (ℕ → α)) (inv : Option (ℕ → ℕ → α)) :
    F.fit_at_z tm solver true none = F.fit_at_z tm solver false inv ∧
    (∀ res, F.fit_at_z tm solver true none = some res →
      res.err = List.replicate tm.length 0 ∧ res.chi2 = F.chi2 tm solver ∧
      res.background = F.background tm solver ∧ res.full = F.fullModel tm solver ∧
      res.coeffs = F.coeffsOut tm solver) ∧
    (F.allBgOk tm = true → ∃ res, F.fit_at_z tm solver true none = some res) := by
  have herr : ∀ (g : Bool) (iv : Option (ℕ → ℕ → α)),
      (g = false ∨ iv = none) → F.errOut tm g iv = List.replicate tm.length 0 := by
    intro g iv hgi
    have hc : ∀ k, F.covard g iv k = 0 := by
      intro k
      rcases hgi with h | h
      · subst h; simp [StackFitter.covard]
      · subst h; cases g <;> simp [StackFitter.covard]
    refine List.eq_replicate_iff.2 ⟨by simp [StackFitter.errOut], fun x hx => ?_⟩
    unfold StackFitter.errOut at hx
    rw [List.mem_map] at hx
    obtain ⟨t, _, rfl⟩ := hx
    rw [hc]
    split <;> rfl
  constructor
  · unfold StackFitter.fit_at_z
    rw [herr true none (Or.inr rfl), herr false inv (Or.inl rfl)]
  constructor
  · intro res h
    unfold StackFitter.fit_at_z at h
    split at h
    · rw [Option.some_inj] at h
      subst h
      exact ⟨herr true none (Or.inr rfl), rfl, rfl, rfl, rfl⟩
    · cases h
  · intro h
    rw [StackFitter.fit_at_z, if_pos h]
    exact ⟨_, rfl⟩


/-- Index of a shifted value in a shifted list. -/
theorem indexOf_map_add (n0 : ℕ) (L : List ℕ) (t : ℕ) :
    (L.map (n0 + ·)).indexOf (n0 + t) = L.indexOf t := by
  induction L with
  | nil => rfl
  | cons a l ih =>
      by_cases hat : a = t
      · subst hat; simp [List.indexOf_cons]
      · have h2 : ¬ (n0 + a = n0 + t) := by omega
        simp [List.indexOf_cons, hat, h2, ih]

namespace StackFitter

variable (F : StackFitter α)

theorem allBgOk_iff (tm : List (TemplateCol α)) :
    F.allBgOk tm = true ↔ ∀ i < F.Next, F.oktemp tm i = true := by
  simp [allBgOk, List.all_eq_true, List.mem_range]

/-- With every background row retained, the retained-row index list splits
into the background block `0..Next-1` followed by the retained template
rows in original order. -/
theorem okIdx_decomp (tm : List (TemplateCol α)) (h : F.allBgOk tm = true) :
    F.okIdx tm = List.range F.Next ++ (F.tmplIdx tm).map (F.Next + ·) := by
  unfold StackFitter.okIdx StackFitter.tmplIdx
  rw [List.range_add, List.filter_append, List.filter_map]
  congr 1
  rw [List.filter_eq_self]
  intro a ha
  rw [List.mem_range] at ha
  exact (F.allBgOk_iff tm).mp h a ha

theorem okIdx_length (tm : List (TemplateCol α)) (h : F.allBgOk tm = true) :
    (F.okIdx tm).length = F.Next + (F.tmplIdx tm).length := by
  rw [F.okIdx_decomp tm h]; simp

theorem tmplIdx_nodup (tm : List (TemplateCol α)) : (F.tmplIdx tm).Nodup :=
  List.Nodup.filter _ (List.nodup_range _)

theorem mem_tmplIdx (tm : List (TemplateCol α)) (t : ℕ) :
    t ∈ F.tmplIdx tm ↔ t < tm.length ∧ F.oktemp tm (F.Next + t) = true := by
  simp [tmplIdx, List.mem_filter, List.mem_range]

/-- Position of retained template `t`'s row among the retained rows:
the background block length plus `t`'s rank among retained templates. -/
theorem okIdx_indexOf (tm : List (TemplateCol α)) (h : F.allBgOk tm = true) (t : ℕ) :
    (F.okIdx tm).indexOf (F.Next + t) = F.Next + (F.tmplIdx tm).indexOf t := by
  rw [F.okIdx_decomp tm h, List.indexOf_append_of_not_mem (by simp [List.mem_range]),
    indexOf_map_add, List.length_range]

theorem okIdx_getD (tm : List (TemplateCol α)) (h : F.allBgOk tm = true) (j : ℕ)
    (hj : j < (F.tmplIdx tm).length) :
    (F.okIdx tm).getD (F.Next + j) 0 = F.Next + (F.tmplIdx tm).getD j 0 := by
  rw [F.okIdx_decomp tm h, List.getD_append_right _ _ _ _ (by simp)]
  rw [List.length_range, Nat.add_sub_cancel_left]
  rw [List.getD_eq_getElem _ _ (by simpa using hj), List.getElem_map,
    List.getD_eq_getElem _ _ hj]

/-- Reindexing of sums over retained template rows: a sum over the retained
row positions `Next..nok-1` equals the zero-filled sum over the original
template positions. -/
theorem retained_sum_reindex (tm : List (TemplateCol α)) (h : F.allBgOk tm = true)
    (c d : ℕ → α) :
    ∑ k ∈ Finset.Ico F.Next (F.okIdx tm).length, c k * d ((F.okIdx tm).getD k 0)
      = ∑ t ∈ Finset.range tm.length,
          (if F.oktemp tm (F.Next + t) = true then
            c ((F.okIdx tm).indexOf (F.Next + t)) else 0) * d (F.Next + t) := by
  have hR : ∀ t ∈ Finset.range tm.length,
      (if F.oktemp tm (F.Next + t) = true then
        c ((F.okIdx tm).indexOf (F.Next + t)) else 0) * d (F.Next + t)
      = if F.oktemp tm (F.Next + t) = true then
          c ((F.okIdx tm).indexOf (F.Next + t)) * d (F.Next + t) else 0 := by
    intro t _
    split <;> simp
  rw [Finset.sum_congr rfl hR, ← Finset.sum_filter]
  rw [F.okIdx_length tm h, Finset.sum_Ico_eq_sum_range, Nat.add_sub_cancel_left]
  refine Finset.sum_nbij' (fun j => (F.tmplIdx tm).getD j 0)
    (fun t => (F.tmplIdx tm).indexOf t) ?_ ?_ ?_ ?_ ?_
  · intro j hj
    rw [Finset.mem_range] at hj
    dsimp only
    have hmem : (F.tmplIdx tm).getD j 0 ∈ F.tmplIdx tm := by
      rw [List.getD_eq_getElem _ _ hj]
      exact List.getElem_mem _
    obtain ⟨h1, h2⟩ := (F.mem_tmplIdx tm _).mp hmem
    rw [Finset.mem_filter, Finset.mem_range]
    exact ⟨h1, h2⟩
  · intro t ht
    rw [Finset.mem_filter, Finset.mem_range] at ht
    dsimp only
    rw [Finset.mem_range]
    exact List.indexOf_lt_length.mpr ((F.mem_tmplIdx tm t).mpr ⟨ht.1, ht.2⟩)
  · intro j hj
    rw [Finset.mem_range] at hj
    dsimp only
    rw [List.getD_eq_getElem _ _ hj]
    exact List.indexOf_getElem (F.tmplIdx_nodup tm) j hj
  · intro t ht
    rw [Finset.mem_filter, Finset.mem_range] at ht
    have hmem : t ∈ F.tmplIdx tm := (F.mem_tmplIdx tm t).mpr ⟨ht.1, ht.2⟩
    dsimp only
    rw [List.getD_eq_getElem _ _ (List.indexOf_lt_length.mpr hmem)]
    exact List.getElem_indexOf (List.indexOf_lt_length.mpr hmem)
  · intro j hj
    rw [Finset.mem_range] at hj
    dsimp only
    have hj2 : (F.tmplIdx tm).indexOf ((F.tmplIdx tm).getD j 0) = j := by
      rw [List.getD_eq_getElem _ _ hj]
      exact List.indexOf_getElem (F.tmplIdx_nodup tm) j hj
    rw [F.okIdx_getD tm h j hj, F.okIdx_indexOf tm h, hj2]

end StackFitter


namespace StackFitter

variable (F : StackFitter α)

/-- At a pixel with nonzero whitening weight, dividing the whitened rows by
`sivarf` recovers the original design-matrix entries. -/
theorem fullModel_of_sivarf_ne (tm : List (TemplateCol α))
    (solver : (ℕ → ℕ → α) → (ℕ → α) → (ℕ → α)) (p : ℕ) (hs : F.sivarf p ≠ 0) :
    F.fullModel tm solver p = ∑ k ∈ Finset.Ico F.Next (F.okIdx tm).length,
      F.coeffs tm solver k * F.designRow tm ((F.okIdx tm).getD k 0) p := by
  unfold fullModel AxRow
  refine Finset.sum_congr rfl fun k _ => ?_
  rw [mul_div_cancel_right₀ _ hs]

theorem designRow_tmpl (tm : List (TemplateCol α)) (t p : ℕ) :
    F.designRow tm (F.Next + t) p = F.tmplRow (tm.getD t default) p := by
  unfold designRow
  rw [if_neg (by omega), Nat.add_sub_cancel_left]

theorem designRow_bg (tm : List (TemplateCol α)) (i : ℕ) (hi : i < F.Next) (p : ℕ) :
    F.designRow tm i p = F.Abg i p := if_pos hi

theorem coeffsOut_getD (tm : List (TemplateCol α))
    (solver : (ℕ → ℕ → α) → (ℕ → α) → (ℕ → α)) (t : ℕ) (ht : t < tm.length) :
    (F.coeffsOut tm solver).getD t 0 =
      if F.oktemp tm (F.Next + t) = true then
        F.coeffs tm solver ((F.okIdx tm).indexOf (F.Next + t)) else 0 := by
  unfold coeffsOut
  rw [List.getD_eq_getElem _ _ (by simpa using ht)]
  simp

theorem errOut_getD (tm : List (TemplateCol α)) (g : Bool) (inv : Option (ℕ → ℕ → α))
    (t : ℕ) (ht : t < tm.length) :
    (F.errOut tm g inv).getD t 0 =
      if F.oktemp tm (F.Next + t) = true then
        F.covard g inv ((F.okIdx tm).indexOf (F.Next + t)) else 0 := by
  unfold errOut
  rw [List.getD_eq_getElem _ _ (by simpa using ht)]
  simp

/-- Destructuring a successful `fit_at_z` call. -/
theorem fit_at_z_eq_some (tm : List (TemplateCol α))
    (solver : (ℕ → ℕ → α) → (ℕ → α) → (ℕ → α)) (g : Bool) (inv : Option (ℕ → ℕ → α))
    (res : FitResult α) (h : F.fit_at_z tm solver g inv = some res) :
    F.allBgOk tm = true ∧ res.chi2 = F.chi2 tm solver ∧
      res.background = F.background tm solver ∧ res.full = F.fullModel tm solver ∧
      res.coeffs = F.coeffsOut tm solver ∧ res.err = F.errOut tm g inv := by
  unfold fit_at_z at h
  by_cases hb : F.allBgOk tm = true
  · rw [if_pos hb, Option.some_inj] at h
    subst h
    exact ⟨hb, rfl, rfl, rfl, rfl, rfl⟩
  · rw [if_neg hb] at h
    cases h

end StackFitter

/-- C2 (amended): the chi-squared returned by `fit_at_z` is the masked sum
of squared residuals times the CONTAMINATION-WEIGHTED inverse variance
`ivarfE * weightf` (lines 120-123: `self.ivarf = hstack([E.ivarf]);
self.ivarf *= self.weightf`), where `ivarfE` is the concatenation of the
per-exposure `1/(1/ivar_raw + (sys_err*flux)^2)` — not that formula alone. -/
theorem c2_chi2_contamination_weighted (F : StackFitter α) (tm : List (TemplateCol α))
    (solver : (ℕ → ℕ → α) → (ℕ → α) → (ℕ → α)) (g : Bool) (inv : Option (ℕ → ℕ → α))
    (res : FitResult α) (h : F.fit_at_z tm solver g inv = some res) :
    res.chi2 = ∑ p ∈ Finset.range F.Ndata,
      if F.fit_mask p then
        (F.scif p - res.full p - res.background p) ^ 2 * (F.ivarfE p * F.weightf p)
      else 0 := by
  obtain ⟨hb, hchi, hbgf, hfull, _, _⟩ := F.fit_at_z_eq_some tm solver g inv res h
  rw [hchi, hfull, hbgf]
  rfl

/-- C3 (amended): at every pixel whose whitening weight `sivarf` is nonzero,
the returned full model is the linear combination of the returned template
coefficients with the original non-whitened template columns, and the
returned background is everywhere the background coefficients times the
indicator basis minus the 0.04 pedestal.  (At `sivarf = 0` pixels the code
computes `0/0`, NaN in numpy, 0 here — not the original column value.) -/
theorem c3_full_unwhitened_where_sivarf_ne (F : StackFitter α)
    (tm : List (TemplateCol α)) (solver : (ℕ → ℕ → α) → (ℕ → α) → (ℕ → α))
    (g : Bool) (inv : Option (ℕ → ℕ → α)) (res : FitResult α)
    (h : F.fit_at_z tm solver g inv = some res) (p : ℕ) (hs : F.sivarf p ≠ 0) :
    res.full p = F.specFullModel tm solver p ∧
    ∀ q, res.background q =
      (∑ i ∈ Finset.range F.Next, F.coeffs tm solver i * F.Abg i q) - pedestal := by
  obtain ⟨hb, _, hbgf, hfull, _, _⟩ := F.fit_at_z_eq_some tm solver g inv res h
  constructor
  · have hre := F.retained_sum_reindex tm hb (F.coeffs tm solver)
      (fun r => F.designRow tm r p)
    rw [hfull, F.fullModel_of_sivarf_ne tm solver p hs, hre]
    unfold StackFitter.specFullModel
    refine Finset.sum_congr rfl fun t ht => ?_
    rw [Finset.mem_range] at ht
    rw [F.coeffsOut_getD tm solver t ht, F.designRow_tmpl]
  · intro q
    rw [hbgf]
    unfold StackFitter.background
    congr 1
    refine Finset.sum_congr rfl fun i hi => ?_
    rw [Finset.mem_range] at hi
    rw [F.designRow_bg tm i hi]

/-- C4: for every call of `fit_at_z` that returns, the coefficient and
uncertainty vectors have length `NTEMP`, are indexed in the original
pre-drop template ordering, are exactly zero at dropped positions, and at
retained position `t` hold the solver output (resp. `covard`) for retained
row `Next + rank of t among retained templates` — the numpy boolean-scatter
semantics of lines 261-265.  (A call raises, returning nothing, exactly
when a background row is dropped; see `allBgOk`.) -/
theorem c4_coeffs_pre_drop_ordering (F : StackFitter α) (tm : List (TemplateCol α))
    (solver : (ℕ → ℕ → α) → (ℕ → α) → (ℕ → α)) (g : Bool) (inv : Option (ℕ → ℕ → α))
    (res : FitResult α) (h : F.fit_at_z tm solver g inv = some res) :
    res.coeffs.length = tm.length ∧ res.err.length = tm.length ∧
    ∀ t, t < tm.length →
      (F.oktemp tm (F.Next + t) = false →
        res.coeffs.getD t 0 = 0 ∧ res.err.getD t 0 = 0) ∧
      (F.oktemp tm (F.Next + t) = true →
        res.coeffs.getD t 0 = F.coeffs tm solver (F.Next + (F.tmplIdx tm).indexOf t) ∧
        res.err.getD t 0 = F.covard g inv (F.Next + (F.tmplIdx tm).indexOf t)) := by
  obtain ⟨hb, _, _, _, hcf, herr⟩ := F.fit_at_z_eq_some tm solver g inv res h
  refine ⟨by rw [hcf]; simp [StackFitter.coeffsOut],
    by rw [herr]; simp [StackFitter.errOut], fun t ht => ⟨fun hok => ?_, fun hok => ?_⟩⟩
  · rw [hcf, herr, F.coeffsOut_getD tm solver t ht, F.errOut_getD tm g inv t ht,
      if_neg (by simp [hok]), if_neg (by simp [hok])]
    exact ⟨rfl, rfl⟩
  · rw [hcf, herr, F.coeffsOut_getD tm solver t ht, F.errOut_getD tm g inv t ht,
      if_pos hok, if_pos hok, F.okIdx_indexOf tm hb]
    exact ⟨rfl, rfl⟩


/-! Concrete evaluations on the ℚ fitter `Fq`. -/

theorem Fq_Ndata : Fq.Ndata = 2 := rfl

theorem Fq_Next : Fq.Next = 1 := rfl

theorem Fq_np_sqrt (x : ℚ) : Fq.np_sqrt x = x := rfl

theorem Fq_mask (p : ℕ) : Fq.fit_mask p = decide (p = 0) := by
  by_cases hp : p < 2
  · simp [StackFitter.fit_mask, hstackB, Fq, vq, hp]
  · have h0 : p ≠ 0 := by omega
    simp [StackFitter.fit_mask, hstackB, Fq, vq, hp, h0]

theorem Fq_maskInd (p : ℕ) : Fq.maskInd p = if p = 0 then 1 else 0 := by
  rw [StackFitter.maskInd, Fq_mask]
  by_cases h0 : p = 0 <;> simp [h0]

theorem Fq_ivarfE0 : Fq.ivarfE 0 = 1 := by
  simp [StackFitter.ivarfE, hstackF, Fq, vq, adjIvar]

theorem Fq_ivarfE1 : Fq.ivarfE 1 = 0 := by
  simp [StackFitter.ivarfE, hstackF, Fq, vq, adjIvar]

theorem Fq_weightf (p : ℕ) (hp : p < 2) : Fq.weightf p = 1 := by
  simp [StackFitter.weightf, hstackF, Fq, vq, hp]

theorem Fq_ivarf0v : Fq.ivarf 0 = 1 := by
  rw [StackFitter.ivarf, Fq_ivarfE0, Fq_weightf 0 (by omega)]
  norm_num

theorem Fq_ivarf1v : Fq.ivarf 1 = 0 := by
  rw [StackFitter.ivarf, Fq_ivarfE1]
  ring

theorem Fq_sivarf0 : Fq.sivarf 0 = 1 := by
  rw [StackFitter.sivarf, Fq_np_sqrt, Fq_ivarf0v]

theorem Fq_sivarf1 : Fq.sivarf 1 = 0 := by
  rw [StackFitter.sivarf, Fq_np_sqrt, Fq_ivarf1v]

theorem Fq_design_bg (tm : List (TemplateCol ℚ)) (p : ℕ) :
    Fq.designRow tm 0 p = if p < 2 then 1 else 0 := by
  rw [StackFitter.designRow, if_pos (by rw [Fq_Next]; omega)]
  by_cases hp : p < 2 <;> simp [StackFitter.Abg, bgRowAux, Fq, vq, hp]

theorem Fq_tmplRow_Tq (p : ℕ) :
    Fq.tmplRow Tq p = if p < 2 then (if p = 0 then 1 else 5) else 0 := by
  by_cases hp : p < 2 <;>
    simp [StackFitter.tmplRow, tmplRowAux, Fq, vq, Tq, hp]

theorem Fq_tmplRow_Tzero (p : ℕ) : Fq.tmplRow Tzero p = 0 := by
  by_cases hp : p < 2 <;>
    simp [StackFitter.tmplRow, tmplRowAux, Fq, vq, Tzero, hp]

theorem Fq_design_one (tm : List (TemplateCol ℚ)) (p : ℕ) :
    Fq.designRow tm 1 p = Fq.tmplRow (tm.getD 0 default) p := by
  rw [StackFitter.designRow, if_neg (by rw [Fq_Next]; omega), Fq_Next]

theorem Fq_design_two (tm : List (TemplateCol ℚ)) (p : ℕ) :
    Fq.designRow tm 2 p = Fq.tmplRow (tm.getD 1 default) p := by
  rw [StackFitter.designRow, if_neg (by rw [Fq_Next]; omega), Fq_Next]

theorem Fq_ok_bg (tm : List (TemplateCol ℚ)) : Fq.oktemp tm 0 = true := by
  simp [StackFitter.oktemp, StackFitter.okSum, Fq_Ndata, Finset.sum_range_succ,
    Fq_design_bg, Fq_maskInd]

theorem Fq_ok_Tq : Fq.oktemp [Tq] 1 = true := by
  simp [StackFitter.oktemp, StackFitter.okSum, Fq_Ndata, Finset.sum_range_succ,
    Fq_design_one, Fq_tmplRow_Tq, Fq_maskInd]

theorem Fq_ok_Tq2 : Fq.oktemp [Tq, Tzero] 1 = true := by
  simp [StackFitter.oktemp, StackFitter.okSum, Fq_Ndata, Finset.sum_range_succ,
    Fq_design_one, Fq_tmplRow_Tq, Fq_maskInd]

theorem Fq_ok_Tzero2 : Fq.oktemp [Tq, Tzero] 2 = false := by
  simp [StackFitter.oktemp, StackFitter.okSum, Fq_Ndata, Finset.sum_range_succ,
    Fq_design_two, Fq_tmplRow_Tzero, Fq_maskInd]

theorem Fq_allbg_Tq : Fq.allBgOk [Tq] = true := by
  rw [StackFitter.allBgOk, Fq_Next]
  simp [Fq_ok_bg]

theorem Fq_allbg_Tq2 : Fq.allBgOk [Tq, Tzero] = true := by
  rw [StackFitter.allBgOk, Fq_Next]
  simp [Fq_ok_bg]

theorem Fq_fit_eq : Fq.fit_at_z [Tq] solver1 false none = some resQ := by
  rw [StackFitter.fit_at_z, if_pos Fq_allbg_Tq]
  rfl

theorem Fq_fit_eq5 : Fq.fit_at_z [Tq] solver1 true none = some resQ5 := by
  rw [StackFitter.fit_at_z, if_pos Fq_allbg_Tq]
  rfl

theorem Fq_fit_eq4 : Fq.fit_at_z [Tq, Tzero] solver1 false none = some resQ4 := by
  rw [StackFitter.fit_at_z, if_pos Fq_allbg_Tq2]
  rfl

theorem Fq_okIdx_Tq : Fq.okIdx [Tq] = [0, 1] := by
  rw [StackFitter.okIdx, Fq_Next,
    show (1 + ([Tq] : List (TemplateCol ℚ)).length) = 2 from rfl,
    show List.range 2 = [0, 1] from rfl]
  simp [List.filter_cons, Fq_ok_bg, Fq_ok_Tq]

theorem Fq_tmplIdx_Tq2 : Fq.tmplIdx [Tq, Tzero] = [0] := by
  rw [StackFitter.tmplIdx, show List.range ([Tq, Tzero].length) = [0, 1] from rfl]
  rw [Fq_Next]
  simp [List.filter_cons, Fq_ok_Tq2, Fq_ok_Tzero2]

theorem Fq_full1 : Fq.fullModel [Tq] solver1 1 = 0 := by
  rw [StackFitter.fullModel]
  refine Finset.sum_eq_zero fun k _ => ?_
  rw [StackFitter.AxRow, Fq_sivarf1, mul_zero, zero_div, mul_zero]

theorem Fq_spec1 : Fq.specFullModel [Tq] solver1 1 = 5 := by
  rw [StackFitter.specFullModel]
  rw [show ([Tq] : List (TemplateCol ℚ)).length = 1 from rfl, Finset.sum_range_one]
  rw [Fq.coeffsOut_getD [Tq] solver1 0 (by norm_num)]
  rw [show Fq.Next + 0 = 1 from rfl, if_pos Fq_ok_Tq]
  rw [show ([Tq] : List (TemplateCol ℚ)).getD 0 default = Tq from rfl, Fq_tmplRow_Tq]
  simp [StackFitter.coeffs, solver1]

/-- C3 counterexample: in the call `Fq.fit_at_z [Tq] solver1 false none`,
pixel 1 has `sivarf = 0` (zero raw inverse variance) and the returned full
model there is `0` (the code computes `(5*0)/0` — NaN in numpy, 0 in exact
arithmetic), while the linear combination of the fitted coefficients with
the original non-whitened template column is 5 — so the whitening is NOT
exactly undone at every pixel. -/
theorem c3_counterexample :
    Fq.fit_at_z [Tq] solver1 false none = some resQ ∧ Fq.sivarf 1 = 0 ∧
      resQ.full 1 = 0 ∧ Fq.specFullModel [Tq] solver1 1 = 5 ∧ ((0 : ℚ) ≠ 5) :=
  ⟨Fq_fit_eq, Fq_sivarf1, Fq_full1, Fq_spec1, by norm_num⟩

/-- Witness for the amended C3 theorem at pixel 0 of `Fq` (nonzero `sivarf`). -/
theorem c3_witness :
    Fq.sivarf 0 ≠ 0 ∧ resQ.full 0 = Fq.specFullModel [Tq] solver1 0 ∧
      resQ.background 0 =
        (∑ i ∈ Finset.range Fq.Next, Fq.coeffs [Tq] solver1 i * Fq.Abg i 0) - pedestal := by
  have hs : Fq.sivarf 0 ≠ 0 := by rw [Fq_sivarf0]; exact one_ne_zero
  have h := c3_full_unwhitened_where_sivarf_ne Fq [Tq] solver1 false none resQ Fq_fit_eq 0 hs
  exact ⟨hs, h.1, h.2 0⟩

/-- Witness for the amended C2 theorem on `Fq`. -/
theorem c2_witness :
    Fq.fit_at_z [Tq] solver1 false none = some resQ ∧
      resQ.chi2 = ∑ p ∈ Finset.range Fq.Ndata,
        if Fq.fit_mask p then
          (Fq.scif p - resQ.full p - resQ.background p) ^ 2 * (Fq.ivarfE p * Fq.weightf p)
        else 0 :=
  ⟨Fq_fit_eq, c2_chi2_contamination_weighted Fq [Tq] solver1 false none resQ Fq_fit_eq⟩

/-- Witness for C4 on `Fq` with one retained (`Tq`) and one dropped
(`Tzero`) template. -/
theorem c4_witness :
    Fq.fit_at_z [Tq, Tzero] solver1 false none = some resQ4 ∧
      resQ4.coeffs.length = 2 ∧ resQ4.err.length = 2 ∧
      resQ4.coeffs.getD 1 0 = 0 ∧ resQ4.err.getD 1 0 = 0 ∧
      resQ4.coeffs.getD 0 0 = Fq.coeffs [Tq, Tzero] solver1 1 := by
  have h := c4_coeffs_pre_drop_ordering Fq [Tq, Tzero] solver1 false none resQ4 Fq_fit_eq4
  have hdrop : Fq.oktemp [Tq, Tzero] (Fq.Next + 1) = false := by
    rw [Fq_Next]
    exact Fq_ok_Tzero2
  have hret : Fq.oktemp [Tq, Tzero] (Fq.Next + 0) = true := by
    rw [Fq_Next]
    exact Fq_ok_Tq2
  have h1 := (h.2.2 1 (by norm_num)).1 hdrop
  have h2 := ((h.2.2 0 (by norm_num)).2 hret).1
  refine ⟨Fq_fit_eq4, by simpa using h.1, by simpa using h.2.1, h1.1, h1.2, ?_⟩
  rw [h2, Fq_tmplIdx_Tq2, Fq_Next]
  norm_num

/-- Witness for C5 on `Fq`: uncertainties requested, singular covariance. -/
theorem c5_witness :
    Fq.fit_at_z [Tq] solver1 true none = some resQ5 ∧
      resQ5.err = List.replicate 1 0 := by
  have h := (c5_singular_covar_zero_err Fq [Tq] solver1 none).2.1 resQ5 Fq_fit_eq5
  exact ⟨Fq_fit_eq5, by simpa using h.1⟩


/-! Concrete evaluations on the ℝ fitter `Fr` (contamination-weighted). -/

theorem Fr_Ndata : Fr.Ndata = 1 := rfl

theorem Fr_mask0 : Fr.fit_mask 0 = true := rfl

theorem Fr_scif0 : Fr.scif 0 = 1 := by
  simp [StackFitter.scif, hstackF, Fr, vr]

theorem Fr_ivarfE0 : Fr.ivarfE 0 = 1 := by
  simp [StackFitter.ivarfE, hstackF, Fr, vr, adjIvar]

theorem Fr_weightf0 : Fr.weightf 0 = Real.exp (-1) := by
  simp [StackFitter.weightf, hstackF, Fr, vr, contamWeight, Real.sqrt_one]

theorem Fr_coeffs (k : ℕ) : Fr.coeffs [] solver0 k = 0 := rfl

theorem Fr_full0 (p : ℕ) : Fr.fullModel [] solver0 p = 0 := by
  rw [StackFitter.fullModel]
  refine Finset.sum_eq_zero fun k _ => ?_
  rw [Fr_coeffs, zero_mul]

theorem Fr_bg0 (p : ℕ) : Fr.background [] solver0 p = -pedestal := by
  rw [StackFitter.background]
  rw [Finset.sum_eq_zero fun i _ => by rw [Fr_coeffs, zero_mul]]
  ring

theorem Fr_design_bg (p : ℕ) : Fr.designRow [] 0 p = if p < 1 then 1 else 0 := by
  rw [StackFitter.designRow, if_pos (by simp [StackFitter.Next, Fr])]
  by_cases hp : p < 1 <;> simp [StackFitter.Abg, bgRowAux, Fr, vr, hp]

theorem Fr_maskInd0 : Fr.maskInd 0 = 1 := by
  simp [StackFitter.maskInd, Fr_mask0]

theorem Fr_ok_bg : Fr.oktemp [] 0 = true := by
  simp [StackFitter.oktemp, StackFitter.okSum, Fr_Ndata, Finset.sum_range_one,
    Fr_design_bg, Fr_maskInd0]

theorem Fr_allbg : Fr.allBgOk [] = true := by
  rw [StackFitter.allBgOk, show Fr.Next = 1 from rfl]
  simp [Fr_ok_bg]

theorem Fr_fit_eq : Fr.fit_at_z [] solver0 false none = some resR := by
  rw [StackFitter.fit_at_z, if_pos Fr_allbg]
  rfl

theorem Fr_chi2_val : Fr.chi2 [] solver0 = (26/25) ^ 2 * Real.exp (-1) := by
  rw [StackFitter.chi2, Fr_Ndata, Finset.sum_range_one, if_pos Fr_mask0]
  rw [StackFitter.residf, Fr_scif0, Fr_full0, Fr_bg0, StackFitter.ivarf,
    Fr_ivarfE0, Fr_weightf0]
  rw [pedestal]
  norm_num

theorem Fr_spec_val : Fr.specChi2 [] solver0 = (26/25) ^ 2 := by
  rw [StackFitter.specChi2, Fr_Ndata, Finset.sum_range_one, if_pos Fr_mask0]
  rw [Fr_scif0, Fr_full0, Fr_bg0, Fr_ivarfE0]
  rw [pedestal]
  norm_num

/-- C2 counterexample: the fitter `Fr` has a contaminated pixel whose stored
weight is `exp(-1)` (line 648 with `fcontam = contam = ivar0 = 1`); the
chi-squared returned by `fit_at_z` is `(26/25)^2 * exp(-1)` — the masked
residual squared times ivar times the contamination weight (line 123) —
while the claim's formula `sum(resid^2 * ivar)` with
`ivar = 1/(1/ivar_raw + (sys_err*flux)^2)` alone gives `(26/25)^2`.  The
two differ, refuting the claim as stated. -/
theorem c2_counterexample :
    Fr.fit_at_z [] solver0 false none = some resR ∧
      resR.chi2 = (26/25) ^ 2 * Real.exp (-1) ∧
      Fr.specChi2 [] solver0 = (26/25) ^ 2 ∧
      ((26/25 : ℝ) ^ 2 * Real.exp (-1) ≠ (26/25) ^ 2) := by
  refine ⟨Fr_fit_eq, Fr_chi2_val, Fr_spec_val, fun hEq => ?_⟩
  have ha : ((26 : ℝ)/25) ^ 2 ≠ 0 := by norm_num
  have h1 : Real.exp (-1) = 1 := by
    have h2 : ((26/25 : ℝ)) ^ 2 * Real.exp (-1) = (26/25) ^ 2 * 1 := by
      rw [mul_one]; exact hEq
    exact mul_left_cancel₀ ha h2
  rw [Real.exp_eq_one_iff] at h1
  norm_num at h1


/-! Theorems about the `fit_zgrid` scan (C8) and the equivalent-width
measurement (C10). -/

/-- C8 (amended): after the coarse scan, `fit_zgrid` performs exactly six
refinement rounds at `iter = 1..6` with no early exit, each locating the
minimum of the previous grid's prior-adjusted chi-squared and building a
log-spaced grid over `[z0 - 4*dz, z0 + 4*dz]` with `dz = dz0/2.02^iter` —
whose point count is determined by that window's log-width over `dz`, NOT
by the previous grid's point count — evaluating the fit there and appending
the results without deduplication. -/
theorem c8_six_fixed_refinement_rounds (fitChi2 : ℝ → ℝ)
    (prior : Option (List ℝ × List ℝ)) (dz0 zr0 zr1 : ℝ) :
    (fitZgridScan fitChi2 prior dz0 zr0 zr1 =
      refineStep fitChi2 prior dz0
        (refineStep fitChi2 prior dz0
          (refineStep fitChi2 prior dz0
            (refineStep fitChi2 prior dz0
              (refineStep fitChi2 prior dz0
                (refineStep fitChi2 prior dz0 (coarseState fitChi2 dz0 zr0 zr1) 1)
                2) 3) 4) 5) 6) ∧
    (∀ st k,
      (refineStep fitChi2 prior dz0 st k).zi =
        log_zgrid
          (st.zi.getD (npArgmin (chiWithPrior prior st)) 0 - dz0 / (202/100 : ℝ) ^ k * 4)
          (st.zi.getD (npArgmin (chiWithPrior prior st)) 0 + dz0 / (202/100 : ℝ) ^ k * 4)
          (dz0 / (202/100 : ℝ) ^ k) ∧
      (refineStep fitChi2 prior dz0 st k).ci =
        (refineStep fitChi2 prior dz0 st k).zi.map fitChi2 ∧
      (refineStep fitChi2 prior dz0 st k).z = st.z ++ (refineStep fitChi2 prior dz0 st k).zi ∧
      (refineStep fitChi2 prior dz0 st k).chi2 =
        st.chi2 ++ (refineStep fitChi2 prior dz0 st k).ci ∧
      (refineStep fitChi2 prior dz0 st k).z.length =
        st.z.length + (refineStep fitChi2 prior dz0 st k).zi.length) :=
  ⟨rfl, fun st k => ⟨rfl, rfl, rfl, rfl, List.length_append _ _⟩⟩

theorem argminGo_of_not_lt (l : List ℝ) (b : ℝ) (h : ∀ x ∈ l, ¬ x < b) :
    ∀ bi ci, argminGo l b bi ci = bi := by
  induction l with
  | nil => intro bi ci; rfl
  | cons c rest ih =>
      intro bi ci
      rw [argminGo, if_neg (h c (List.mem_cons_self c rest))]
      exact ih (fun x hx => h x (List.mem_cons_of_mem c hx)) bi (ci + 1)

theorem npArgmin_replicate (n : ℕ) (c : ℝ) : npArgmin (List.replicate n c) = 0 := by
  cases n with
  | zero => rfl
  | succ m =>
      rw [List.replicate_succ, npArgmin]
      refine argminGo_of_not_lt _ _ (fun x hx => ?_) 0 1
      rw [List.eq_of_mem_replicate hx]
      exact lt_irrefl c

theorem getD_zero_map_range {β : Type} (f : ℕ → β) (n : ℕ) (hn : 0 < n) (d : β) :
    ((List.range n).map f).getD 0 d = f 0 := by
  rw [List.getD_eq_getElem _ _ (by simpa using hn), List.getElem_map, List.getElem_range]

theorem log_zgrid_length (zr0 zr1 dz : ℝ) :
    (log_zgrid zr0 zr1 dz).length =
      arangeLen (Real.log (1 + zr0)) (Real.log (1 + zr1)) dz := by
  rw [log_zgrid, List.length_map, npArange, List.length_map, List.length_range]

theorem log_zgrid_getD_zero (zr0 zr1 dz : ℝ)
    (hn : 0 < (log_zgrid zr0 zr1 dz).length) (h0 : 0 < 1 + zr0) :
    (log_zgrid zr0 zr1 dz).getD 0 0 = zr0 := by
  rw [log_zgrid_length] at hn
  rw [log_zgrid, npArange, List.map_map, getD_zero_map_range _ _ hn]
  simp [Real.exp_log h0]

/-- C8 counterexample: with a constant chi-squared, no prior, `dz0 = 0.005`
and the coarse range `[0.4, 3.4]`, the coarse grid has at least 200 points
while round 1's refinement grid has at most 6 — the refinement grid does
not have the same point count as the previous grid. -/
theorem c8_counterexample :
    ((refineStep (fun _ => (0 : ℝ)) none (1/200)
        (coarseState (fun _ => (0 : ℝ)) (1/200) (2/5) (17/5)) 1).zi).length ≠
      ((coarseState (fun _ => (0 : ℝ)) (1/200) (2/5) (17/5)).zi).length := by
  have hlog22 : (1 : ℝ) ≤ Real.log (22/7) := by
    rw [Real.le_log_iff_exp_le (by norm_num : (0 : ℝ) < 22/7)]
    exact le_of_lt (lt_of_lt_of_le Real.exp_one_lt_d9 (by norm_num))
  have hdiff : Real.log (1 + (17/5 : ℝ)) - Real.log (1 + (2/5 : ℝ)) = Real.log (22/7) := by
    rw [show (1 : ℝ) + 17/5 = 22/5 by norm_num, show (1 : ℝ) + 2/5 = 7/5 by norm_num,
      ← Real.log_div (by norm_num) (by norm_num)]
    norm_num
  have hlenc : 200 ≤ ((coarseState (fun _ => (0 : ℝ)) (1/200) (2/5) (17/5)).zi).length := by
    show 200 ≤ (log_zgrid (2/5) (17/5) (1/200)).length
    rw [log_zgrid_length, arangeLen]
    have : (199 : ℝ) < (Real.log (1 + (17/5 : ℝ)) - Real.log (1 + (2/5 : ℝ))) / (1/200) := by
      rw [hdiff, div_eq_mul_inv, show ((1 : ℝ)/200)⁻¹ = 200 by norm_num]
      nlinarith
    exact Nat.lt_ceil.mpr this
  have hpos : 0 < ((coarseState (fun _ => (0 : ℝ)) (1/200) (2/5) (17/5)).zi).length := by
    omega
  have hci : (coarseState (fun _ => (0 : ℝ)) (1/200) (2/5) (17/5)).ci =
      List.replicate (log_zgrid (2/5) (17/5) (1/200)).length 0 := by
    show (log_zgrid (2/5) (17/5) (1/200)).map (fun _ => (0 : ℝ)) = _
    rw [List.map_const']
  have hargmin :
      npArgmin (chiWithPrior none (coarseState (fun _ => (0 : ℝ)) (1/200) (2/5) (17/5))) = 0 := by
    show npArgmin (coarseState (fun _ => (0 : ℝ)) (1/200) (2/5) (17/5)).ci = 0
    rw [hci, npArgmin_replicate]
  have hz0 : (coarseState (fun _ => (0 : ℝ)) (1/200) (2/5) (17/5)).zi.getD 0 0 = 2/5 := by
    show (log_zgrid (2/5) (17/5) (1/200)).getD 0 0 = 2/5
    exact log_zgrid_getD_zero _ _ _ hpos (by norm_num)
  have hlen1 : ((refineStep (fun _ => (0 : ℝ)) none (1/200)
      (coarseState (fun _ => (0 : ℝ)) (1/200) (2/5) (17/5)) 1).zi).length ≤ 6 := by
    show (log_zgrid _ _ _).length ≤ 6
    rw [hargmin, hz0, log_zgrid_length, arangeLen]
    rw [show ((1 : ℝ)/200) / (202/100 : ℝ) ^ 1 = 1/404 by norm_num]
    rw [show (1 : ℝ) + (2/5 - 1/404 * 4) = 702/505 by norm_num]
    rw [show (1 : ℝ) + (2/5 + 1/404 * 4) = 712/505 by norm_num]
    refine Nat.ceil_le.mpr ?_
    have hld : Real.log (712/505) - Real.log (702/505) = Real.log (712/702) := by
      rw [← Real.log_div (by norm_num) (by norm_num)]
      norm_num
    rw [hld, div_eq_mul_inv, show ((1 : ℝ)/404)⁻¹ = 404 by norm_num]
    have hb : Real.log ((712 : ℝ)/702) ≤ 712/702 - 1 :=
      Real.log_le_sub_one_of_pos (by norm_num)
    nlinarith
  omega

/-- C10: a line template whose fitted coefficient is exactly zero gets an
equivalent width of exactly 0 from `lineEW` — the composite-spectrum
integration branch is skipped entirely, so neither the -1000 sentinel nor a
non-finite value can be produced (and 0 ≠ -1000). -/
theorem c10_zero_coeff_zero_ew (coeff : α) (cw lf cf : List α) (lineLo lineHi : α)
    (h : coeff = 0) :
    lineEW coeff cw lf cf lineLo lineHi = 0 ∧ (0 : α) ≠ -1000 := by
  constructor
  · rw [lineEW, if_pos h]
  · norm_num

/-- Witness for C10 at concrete data. -/
theorem c10_witness :
    lineEW (0 : ℚ) [1, 2] [3, 4] [5, 6] 1 2 = 0 ∧ (0 : ℚ) ≠ -1000 :=
  c10_zero_coeff_zero_ew (0 : ℚ) [1, 2] [3, 4] [5, 6] 1 2 rfl

end GrizliStack
